import Mathlib

/-!
Shallow embedding of `altair/vegalite/v2/api.py` (the specification-assembly
and validation pipeline of the Altair chart builder), together with proofs
checking the natural-language specification against it.

Python dictionaries are embedded as association lists of `String × Val`,
where `dictSet`/`dictUpdate` reproduce CPython `dict.__setitem__` /
`dict.update` semantics (an existing key keeps its position and is
overwritten; a new key is appended at the end).  Schema-generated node
classes (the `core` / `channels` modules, which are external collaborators
of the file under study) are embedded as a class-name tag plus the ordered
keyword mapping `_kwds`, which is exactly the state the Python objects
carry.
-/

namespace Altair

/-- A Python value as it appears in the chart-building pipeline: a string,
an integer, a plain dict, a list, a schema-node object (class name plus its
`_kwds` mapping), or the `Undefined` sentinel. -/
inductive Val where
  | str (s : String)
  | int (n : Int)
  | dict (fields : List (String × Val))
  | list (xs : List Val)
  | node (cls : String) (kwds : List (String × Val))
  | undefined

abbrev Dict := List (String × Val)

/-- `v is Undefined` as a boolean test. -/
def Val.isUndefined : Val → Bool
  | .undefined => true
  | _ => false

/-- Lookup of a key in a Python dict (first occurrence; well-formed dicts
have unique keys). -/
def dictGet : Dict → String → Option Val
  | [], _ => none
  | (k', v) :: rest, k => if k' = k then some v else dictGet rest k

/-- CPython `d[k] = v`: an existing key keeps its position and is
overwritten, a new key is appended at the end. -/
def dictSet : Dict → String → Val → Dict
  | [], k, v => [(k, v)]
  | (k', v') :: rest, k, v =>
      if k' = k then (k, v) :: rest else (k', v') :: dictSet rest k v

/-- CPython `d.update(e)`: set each key of `e` in `d`, in order. -/
def dictUpdate (d e : Dict) : Dict :=
  e.foldl (fun acc p => dictSet acc p.1 p.2) d

/-- Path lookup through nested mappings (an observation helper for the
serialized document). -/
def dictGetIn (v : Val) : List String → Option Val
  | [] => some v
  | k :: rest =>
      match v with
      | .dict d =>
          match dictGet d k with
          | some w => dictGetIn w rest
          | none => none
      | _ => none

-- ----------------------------------------------------------------------
-- Selection algebra (api.py lines 41-93)

/-- `SelectionMapping`: a mapping of selection names to selection
definitions; the embedding keeps its `_kwds` association list. -/
structure SelectionMapping where
  kwds : Dict

/-- A schema-node object: its Python class name and its `_kwds`. -/
structure SchemaNode where
  cls : String
  kwds : Dict

/-- `SchemaBase.to_dict` on a predicate node: the node serializes to the
plain mapping of its (defined) keyword fields. -/
def SchemaNode.toDict (n : SchemaNode) : Dict :=
  n.kwds.filter (fun p => !p.2.isUndefined)

/-- `SelectionMapping._get_name` (api.py 62-65): raises unless the mapping
holds exactly one name; returns the single name. -/
def SelectionMapping.getName (s : SelectionMapping) : Except String String :=
  match s.kwds with
  | [(n, _)] => .ok n
  | _ => .error "Selection Mapping has more than one name"

/-- `SelectionMapping.ref` (api.py 49-60): resolve to a named selection
reference; with no name given, a single-entry mapping supplies its name. -/
def SelectionMapping.ref (s : SelectionMapping) (name : Option String) :
    Except String Dict :=
  let name := match name with
    | none => if s.kwds.length = 1 then (s.kwds.head?.map (·.1)) else none
    | some n => some n
  match name with
  | some n =>
      if (dictGet s.kwds n).isSome then .ok [("selection", .str n)]
      else .error ("not a valid selection name in this mapping: " ++ n)
  | none => .error "not a valid selection name in this mapping"

/-- `SelectionMapping.__invert__` (api.py 82-83):
`core.SelectionNot(**\x7b'not': self._get_name()\x7d)`. -/
def SelectionMapping.invert (s : SelectionMapping) : Except String SchemaNode :=
  (s.getName).map (fun n => ⟨"SelectionNot", [("not", .str n)]⟩)

/-- The right operand of `&` / `|`: another `SelectionMapping` or a raw
value (e.g. a raw name string). -/
inductive SelOperand where
  | mapping (m : SelectionMapping)
  | raw (v : Val)

/-- `SelectionMapping.__and__` (api.py 85-88): resolve the right operand to
its name when it is a mapping, then build
`core.SelectionAnd(**\x7b'and': [self._get_name(), other]\x7d)`. -/
def SelectionMapping.andOp (s : SelectionMapping) (other : SelOperand) :
    Except String SchemaNode := do
  let otherVal : Val ← match other with
    | .mapping m => (m.getName).map Val.str
    | .raw v => pure v
  let n ← s.getName
  pure ⟨"SelectionAnd", [("and", .list [.str n, otherVal])]⟩

/-- `SelectionMapping.__or__` (api.py 90-93): resolve the right operand to
its name when it is a mapping, then build
`core.SelectionAnd(**\x7b'or': [self._get_name(), other]\x7d)` — note the
source constructs the `SelectionAnd` class here, with an `or` payload. -/
def SelectionMapping.orOp (s : SelectionMapping) (other : SelOperand) :
    Except String SchemaNode := do
  let otherVal : Val ← match other with
    | .mapping m => (m.getName).map Val.str
    | .raw v => pure v
  let n ← s.getName
  pure ⟨"SelectionAnd", [("or", .list [.str n, otherVal])]⟩

-- ----------------------------------------------------------------------
-- Condition builder (api.py 139-197)

/-- The selection-predicate node classes of api.py 159-160. -/
def selectionPredicateClasses : List String :=
  ["SelectionNot", "SelectionOr", "SelectionAnd", "SelectionOperand"]

/-- The test-predicate node classes of api.py 161-163 (strings are handled
separately). -/
def testPredicateClasses : List String :=
  ["Predicate", "LogicalOperandPredicate", "LogicalNotPredicate",
   "LogicalOrPredicate", "LogicalAndPredicate"]

/-- A predicate argument to `condition`: a `SelectionMapping`, a schema
node, a string, or a raw dict.  Python dispatches on `isinstance`. -/
inductive Predicate where
  | selMap (s : SelectionMapping)
  | node (n : SchemaNode)
  | str (s : String)
  | rawDict (d : Dict)

/-- A branch argument (`if_true` / `if_false`) to `condition`: a schema
node, a string, or a plain mapping. -/
inductive Branch where
  | node (n : SchemaNode)
  | str (s : String)
  | dict (d : Dict)

/-- The result of `condition`: a plain dict, or (when `if_false` is a
schema node) a copy of that node with its `condition` attribute set. -/
inductive CondResult where
  | dict (d : Dict)
  | node (n : SchemaNode)

/-- `condition(predicate, if_true, if_false, **kwargs)` (api.py 139-197).
The predicate is normalized to a condition mapping; `if_true`'s attributes
are merged into it; the result is attached under key `condition` onto
`if_false`'s own representation. -/
def condition (predicate : Predicate) (ifTrue ifFalse : Branch)
    (kwargs : Dict) : Except String CondResult := do
  let cond : Dict ←
    match predicate with
    | .selMap s => (s.getName).map (fun n => [("selection", Val.str n)])
    | .node n =>
        if n.cls ∈ selectionPredicateClasses then
          pure [("selection", Val.node n.cls n.kwds)]
        else if n.cls ∈ testPredicateClasses then
          pure [("test", Val.node n.cls n.kwds)]
        else .error ("condition predicate of type " ++ n.cls)
    | .str s => pure [("test", Val.str s)]
    | .rawDict d => pure d
  let ifTrueDict : Dict :=
    match ifTrue with
    | .node n => n.toDict
    | .str s => dictUpdate [("field", Val.str s)] kwargs
    | .dict d => d
  let cond := dictUpdate cond ifTrueDict
  match ifFalse with
  | .node n => pure (.node ⟨n.cls, dictSet n.kwds "condition" (Val.dict cond)⟩)
  | .str s =>
      pure (.dict (dictUpdate
        [("condition", Val.dict cond), ("field", Val.str s)] kwargs))
  | .dict d =>
      if (dictGet d "condition").isSome then
        .error "dict got multiple values for keyword argument condition"
      else
        pure (.dict ([("condition", Val.dict cond)] ++ d))

-- ----------------------------------------------------------------------
-- Channel resolution inside Chart.encode (api.py 464-534)

/-- Modelled from the spec: the registry of channel subtype class names
declared by the schema-generated `channels` module, which is not under
src/.  Spec section 3 lists the channel names (x, y, color, size, text,
tooltip, detail, order, shape, facet, row, column) and states that each
channel comes in a field-bound flavor (title-cased name) and a
literal-valued flavor (suffixed "Value"). -/
def channelClassNames : List String :=
  ["X", "XValue", "Y", "YValue", "Color", "ColorValue", "Size", "SizeValue",
   "Text", "TextValue", "Tooltip", "TooltipValue", "Detail", "DetailValue",
   "Order", "OrderValue", "Shape", "ShapeValue", "Facet", "FacetValue",
   "Row", "RowValue", "Column", "ColumnValue"]

/-- Python `str.title()` restricted to the single-word channel names passed
as `encode` keywords: first character upper-cased, the rest lower-cased. -/
def pythonTitle (s : String) : String :=
  match s.data with
  | [] => ""
  | c :: cs => String.mk (c.toUpper :: cs.map Char.toLower)

/-- Modelled from the spec: the shorthand parser (`altair/utils`, which is
not under src/).  Spec 4.1: a shorthand is `field` or `field:type`
(aggregate-prefixed forms are not exercised by the claims); the output is a
mapping with keys among field and type; with no data sample available the
type of a bare `field` is left unset.  The spec's own example expands the
single-letter code Q to quantitative; the remaining three semantic types
get the analogous codes. -/
def expandTypeCode (t : String) : String :=
  if t = "Q" then "quantitative"
  else if t = "N" then "nominal"
  else if t = "O" then "ordinal"
  else if t = "T" then "temporal"
  else t

/-- Split a character list at each colon (the separator of the shorthand
type suffix). -/
def splitCols : List Char → List (List Char)
  | [] => [[]]
  | c :: rest =>
      let r := splitCols rest
      if c = ':' then [] :: r
      else
        match r with
        | g :: gs => (c :: g) :: gs
        | [] => [[c]]

/-- Modelled from the spec: `parse_shorthand` (see `expandTypeCode`). -/
def parse_shorthand (s : String) : Dict :=
  match (splitCols s.data).map (fun g => String.mk g) with
  | [f, t] => [("field", Val.str f), ("type", Val.str (expandTypeCode t))]
  | _ => [("field", Val.str s)]

/-- An argument bound to an encoding channel in `Chart.encode`: a typed
schema node, a shorthand string, or a plain mapping. -/
inductive EncArg where
  | node (n : SchemaNode)
  | str (s : String)
  | dict (d : Dict)

/-- The tail of `_wrap_in_channel_class` (api.py 488-507) once the argument
is in mapping form: merge shorthand-parsed attributes over the mapping when
a `field` key is present, pick the Value-suffixed class name when a `value`
key is present, fail when the `channels` module has no class of that name,
and otherwise construct the class from the mapping — falling back to the
mapping itself when construction raises a schema-validation error.  The
external `cls.from_dict(obj, validate=False)` call is abstracted by
`fromDictOk`: construction succeeds and yields the node iff it returns
true.  (A non-string `field` value would be handed to the shorthand parser,
whose modelled domain is strings; such inputs are outside every claim and
are left unmerged here.) -/
def resolveChannelDict (fromDictOk : String → Dict → Bool)
    (clsname prop : String) (d : Dict) : Except String Val :=
  let d := match dictGet d "field" with
    | some (Val.str f) => dictUpdate d (parse_shorthand f)
    | _ => d
  let clsname := if (dictGet d "value").isSome then clsname ++ "Value" else clsname
  if clsname ∈ channelClassNames then
    if fromDictOk clsname d then .ok (.node clsname d)
    else .ok (.dict d)
  else .error ("Unrecognized encoding channel " ++ prop)

/-- `Chart.encode._wrap_in_channel_class(obj, prop)` (api.py 479-507): a
schema node passes through unchanged; a string becomes a field mapping;
mappings are resolved by `resolveChannelDict`. -/
def wrapInChannelClass (fromDictOk : String → Dict → Bool)
    (obj : EncArg) (prop : String) : Except String Val :=
  let clsname := pythonTitle prop
  match obj with
  | .node n => .ok (.node n.cls n.kwds)
  | .str s => resolveChannelDict fromDictOk clsname prop [("field", Val.str s)]
  | .dict d => resolveChannelDict fromDictOk clsname prop d

/-- A dict/node/string value reinterpreted as a channel argument (the
`condition` sub-value of an encoding mapping is itself wrapped). -/
def Val.toEncArg : Val → Option EncArg
  | .str s => some (.str s)
  | .dict d => some (.dict d)
  | .node c k => some (.node ⟨c, k⟩)
  | _ => none

/-- One channel of `Chart.encode` (api.py 509-517): when the argument is a
mapping with a defined `condition` entry, that entry is wrapped in the
channel class first and stored back; then the whole argument is wrapped. -/
def encodeChannel (fromDictOk : String → Dict → Bool) (prop : String)
    (field : EncArg) : Except String Val := do
  let field : EncArg ←
    match field with
    | .dict d =>
        match dictGet d "condition" with
        | some c =>
            if c.isUndefined then pure (EncArg.dict d)
            else
              match c.toEncArg with
              | some ca => do
                  let w ← wrapInChannelClass fromDictOk ca prop
                  pure (EncArg.dict (dictSet d "condition" w))
              | none => pure (EncArg.dict d)
        | none => pure (EncArg.dict d)
    | f => pure f
  wrapInChannelClass fromDictOk field prop

-- ----------------------------------------------------------------------
-- TopLevelMixin: data normalization and to_dict (api.py 203-256)

/-- `SCHEMA_URL` (api.py 17). -/
def SCHEMA_URL : String := "https://vega.github.io/schema/vega-lite/v2.json"

/-- `TopLevelMixin._default_spec_values` (api.py 205). -/
def defaultSpecValues : Dict :=
  [("config", Val.dict
    [("view", Val.dict [("width", Val.int 400), ("height", Val.int 300)])])]

/-- The chart's `data` attribute: a tabular value (opaque payload), a URL
string, a plain mapping, a schema node, or unset. -/
inductive DataAttr where
  | dataFrame (df : String)
  | strUrl (s : String)
  | dictData (d : Dict)
  | nodeData (n : SchemaNode)
  | undefined

/-- The state of a top-level chart object: its `data` attribute plus the
remaining attributes, which `to_dict` itself never touches. -/
structure ChartState where
  data : DataAttr
  rest : Dict

/-- `TopLevelMixin._prepare_data` (api.py 208-215), invoked on a chart
instance: mappings and schema nodes pass through; a tabular value is piped
through the data-transformer pipeline (the external `pipe`, abstracted as
`pipeFn`) and the result assigned to `self.data`; a string is wrapped as
`core.UrlData`. -/
def prepareData (pipeFn : String → DataAttr) (c : ChartState) : ChartState :=
  match c.data with
  | .dictData _ | .nodeData _ => c
  | .dataFrame t => { c with data := pipeFn t }
  | .strUrl s =>
      { c with data := .nodeData ⟨"UrlData", [("url", Val.str s)]⟩ }
  | .undefined => c

-- Modelled from the spec: `deepMergeVal` is the per-key merge of
-- `update_nested`: where both sides hold mappings the merge recurses,
-- otherwise the caller-side value wins.
mutual

def deepMergeVal : Option Val → Val → Val
  | some (Val.dict sub), Val.dict usub => Val.dict (update_nested sub usub)
  | _, u => u
termination_by o v => sizeOf v

/-- Modelled from the spec: `update_nested(d, u)` (`altair/utils`, which is
not under src/).  Spec 4.5 step 4: the defaults `d` are deep-merged
underneath the caller's document `u` — entries of `u` override entries of
`d`, recursing where both sides hold mappings. -/
def update_nested (d : Dict) : Dict → Dict
  | [] => d
  | (k, v) :: rest =>
      update_nested (dictSet d k (deepMergeVal (dictGet d k) v)) rest
termination_by u => sizeOf u

end

/-- The top-level finalization step of `to_dict` (api.py 248-256): inject
the schema URL when absent, then merge the default spec values underneath
the document. -/
def finalizeTop (topLevel : Bool) (dct : Dict) : Dict :=
  if topLevel then
    let dct :=
      if (dictGet dct "$schema").isNone then
        dictSet dct "$schema" (Val.str SCHEMA_URL)
      else dct
    update_nested defaultSpecValues dct
  else dct

/-- What a call to `TopLevelMixin.to_dict` produces: the document (or the
propagated validation error of the deep pass), the number of node-tree
conversions that ran, and the state of the receiver when the call
returns. -/
structure ToDictOut where
  result : Except Unit Dict
  conversions : Nat
  selfAfter : ChartState

/-- `TopLevelMixin.to_dict` (api.py 217-256).  The receiver is copied and
the copy's data prepared; the external `super().to_dict` conversion walk is
abstracted as `convert` (second argument: the deep-validation flag, false
on the first pass).  A validation error of the first conversion is
discarded and the conversion retried once with deep validation; an error of
the retry propagates.  On the top-level call the document is finalized.
All mutation happens on the copy, so the receiver's state at return is its
state at entry. -/
def toDict (pipeFn : String → DataAttr)
    (convert : ChartState → Bool → Except Unit Dict)
    (c : ChartState) (topLevel : Bool) : ToDictOut :=
  let copy := c
  let copy := prepareData pipeFn copy
  match convert copy false with
  | .ok dct => ⟨.ok (finalizeTop topLevel dct), 1, c⟩
  | .error _ =>
      match convert copy true with
      | .ok dct => ⟨.ok (finalizeTop topLevel dct), 2, c⟩
      | .error e => ⟨.error e, 2, c⟩

-- ----------------------------------------------------------------------
-- Compound chart variants and the sub-spec check (api.py 570-718)

/-- A child specification handed to a compound chart: a schema node or a
raw mapping. -/
inductive SubSpec where
  | node (n : SchemaNode)
  | dict (d : Dict)

/-- `getattr(spec, attr, Undefined)` for schema nodes and
`spec.get(attr, Undefined)` for mappings (api.py 579-582). -/
def subspecGetAttr (s : SubSpec) (attr : String) : Val :=
  match s with
  | .node n => (dictGet n.kwds attr).getD .undefined
  | .dict d => (dictGet d attr).getD .undefined

/-- The fixed list of top-level-only properties (api.py 578). -/
def topLevelOnlyProps : List String :=
  ["autosize", "background", "config", "padding"]

/-- The error message of `_check_if_valid_subspec` (api.py 575-576),
naming the offending attribute and the compound-chart class. -/
def subspecErr (attr classname : String) : String :=
  "Objects with " ++ attr ++ " cannot be used within " ++ classname ++
  ". Consider defining the " ++ attr ++ " attribute in the " ++
  classname ++ " object instead."

/-- The loop of `_check_if_valid_subspec` (api.py 578-584) over a list of
attribute names: fail on the first defined one. -/
def checkProps (spec : SubSpec) (classname : String) :
    List String → Except String Unit
  | [] => .ok ()
  | a :: rest =>
      if (subspecGetAttr spec a).isUndefined then checkProps spec classname rest
      else .error (subspecErr a classname)

/-- `_check_if_valid_subspec(spec, classname)` (api.py 570-584). -/
def checkIfValidSubspec (spec : SubSpec) (classname : String) :
    Except String Unit :=
  checkProps spec classname topLevelOnlyProps

/-- The four compound chart variants. -/
inductive VariantKind where
  | layer
  | hconcat
  | vconcat
  | repeatChart

/-- The class name each variant passes to `_check_if_valid_subspec`. -/
def VariantKind.className : VariantKind → String
  | .layer => "LayerChart"
  | .hconcat => "HConcatChart"
  | .vconcat => "VConcatChart"
  | .repeatChart => "RepeatChart"

/-- The child-checking loop of the compound-chart constructors
(api.py 590-592, 639-643, 667-671, 695-700). -/
def checkChildren (kind : VariantKind) : List SubSpec → Except String Unit
  | [] => .ok ()
  | c :: rest => do
      let _ ← checkIfValidSubspec c kind.className
      checkChildren kind rest

/-- A compound-chart constructor: check every child against the top-level-
only properties, then store the children list. -/
def mkCompoundChart (kind : VariantKind) (children : List SubSpec) :
    Except String (List SubSpec) :=
  (checkChildren kind children).map (fun _ => children)

/-- The append/composition operators of the compound charts
(`__iadd__`/`__add__` on LayerChart, `__ior__`/`__or__` on HConcatChart,
`__iand__`/`__and__` on VConcatChart; api.py 645-654, 673-682, 702-711):
check the new child, then append it to the children list. -/
def appendChild (kind : VariantKind) (children : List SubSpec)
    (other : SubSpec) : Except String (List SubSpec) :=
  (checkIfValidSubspec other kind.className).map (fun _ => children ++ [other])

-- ----------------------------------------------------------------------
-- The repeat helper (api.py 617-633)

/-- `repeat(repeater)` (api.py 617-633): assert the repeater is the string
row or the string column, then build `core.RepeatRef(repeat=repeater)`.
The failed Python `assert` is embedded as `none`. -/
def repeatRef (repeater : String) : Option SchemaNode :=
  if repeater = "row" ∨ repeater = "column" then
    some ⟨"RepeatRef", [("repeat", Val.str repeater)]⟩
  else none

-- ----------------------------------------------------------------------
-- Association-list infrastructure lemmas

/-- Well-formedness of an embedded Python dict: keys are unique (each key
is absent from the remainder of the list). -/
def dictWF : Dict → Prop
  | [] => True
  | (k, _) :: rest => dictGet rest k = none ∧ dictWF rest

theorem dictGet_dictSet_self (d : Dict) (k : String) (v : Val) :
    dictGet (dictSet d k v) k = some v := by
  induction d with
  | nil => simp [dictSet, dictGet]
  | cons p rest ih =>
      obtain ⟨k', v'⟩ := p
      by_cases h : k' = k <;> simp [dictSet, dictGet, h, ih]

theorem dictGet_dictSet_ne (d : Dict) (k k' : String) (v : Val)
    (h : k ≠ k') : dictGet (dictSet d k v) k' = dictGet d k' := by
  induction d with
  | nil => simp [dictSet, dictGet, h]
  | cons p rest ih =>
      obtain ⟨k₀, v₀⟩ := p
      by_cases h₀ : k₀ = k <;> by_cases h₁ : k₀ = k' <;>
        simp_all [dictSet, dictGet]

theorem dictWF_dictSet (d : Dict) (k : String) (v : Val) (hd : dictWF d) :
    dictWF (dictSet d k v) := by
  induction d with
  | nil => exact ⟨rfl, trivial⟩
  | cons p rest ih =>
      obtain ⟨k₀, v₀⟩ := p
      obtain ⟨hnone, hwf⟩ := hd
      by_cases h₀ : k₀ = k
      · subst h₀
        simp only [dictSet, if_pos rfl]
        exact ⟨hnone, hwf⟩
      · simp only [dictSet, if_neg h₀]
        refine ⟨?_, ih hwf⟩
        rw [dictGet_dictSet_ne _ _ _ _ (fun h => h₀ h.symm)]
        exact hnone

theorem update_nested_nil (d : Dict) : update_nested d [] = d := by
  rw [update_nested]

theorem update_nested_cons (d : Dict) (k : String) (v : Val) (rest : Dict) :
    update_nested d ((k, v) :: rest) =
      update_nested (dictSet d k (deepMergeVal (dictGet d k) v)) rest := by
  rw [update_nested]

theorem deepMergeVal_dicts (sub usub : Dict) :
    deepMergeVal (some (Val.dict sub)) (Val.dict usub) =
      Val.dict (update_nested sub usub) := by
  rw [deepMergeVal]

theorem deepMergeVal_nondict (o : Option Val) (v : Val)
    (hv : ∀ x, v ≠ Val.dict x) : deepMergeVal o v = v := by
  rcases o with _ | w
  · cases v <;>
      first
        | exact absurd rfl (hv _)
        | (rw [deepMergeVal] <;> rintro sub usub h₁ h₂ <;> simp_all)
  · cases w <;> cases v <;>
      first
        | exact absurd rfl (hv _)
        | (rw [deepMergeVal] <;> rintro sub usub h₁ h₂ <;> simp_all)

theorem deepMergeVal_none (v : Val) : deepMergeVal none v = v := by
  cases v <;>
    first
      | rfl
      | (rw [deepMergeVal] <;> rintro sub usub h₁ h₂ <;> simp_all)

theorem deepMergeVal_int (o : Option Val) (n : Int) :
    deepMergeVal o (Val.int n) = Val.int n :=
  deepMergeVal_nondict o _ (fun x h => Val.noConfusion h)

theorem deepMergeVal_str (o : Option Val) (s : String) :
    deepMergeVal o (Val.str s) = Val.str s :=
  deepMergeVal_nondict o _ (fun x h => Val.noConfusion h)

/-- A key absent from the caller-side document keeps its default-side value
through the merge. -/
theorem dictGet_update_nested_of_not_mem (d u : Dict) (k : String)
    (hk : dictGet u k = none) :
    dictGet (update_nested d u) k = dictGet d k := by
  induction u generalizing d with
  | nil => rw [update_nested_nil]
  | cons p rest ih =>
      obtain ⟨k₀, v⟩ := p
      have hne : k₀ ≠ k := by
        intro h
        simp [dictGet, h] at hk
      have hrest : dictGet rest k = none := by
        simpa [dictGet, hne] using hk
      rw [update_nested_cons, ih _ hrest, dictGet_dictSet_ne _ _ _ _ hne]

/-- A caller-side entry whose value is not a mapping overrides the
default-side value in the merge. -/
theorem dictGet_update_nested_of_nondict (d u : Dict) (k : String) (v : Val)
    (hu : dictWF u) (hk : dictGet u k = some v)
    (hv : ∀ x, v ≠ Val.dict x) :
    dictGet (update_nested d u) k = some v := by
  induction u generalizing d with
  | nil => cases hk
  | cons p rest ih =>
      obtain ⟨k₀, v₀⟩ := p
      obtain ⟨hnone, hwf⟩ := hu
      by_cases h₀ : k₀ = k
      · subst h₀
        have hv₀ : v₀ = v := by simpa [dictGet] using hk
        subst hv₀
        rw [update_nested_cons, deepMergeVal_nondict _ _ hv,
          dictGet_update_nested_of_not_mem _ _ _ hnone, dictGet_dictSet_self]
      · have hk' : dictGet rest k = some v := by
          simpa [dictGet, h₀] using hk
        rw [update_nested_cons]
        exact ih _ hwf hk'

-- ----------------------------------------------------------------------
-- C6: selection negation

/-- C6 (counterexample): on the one-name selection mapping with name sel,
`~S` yields the bare SelectionNot node, whose mapping form is
`{not: sel}` — not the claimed `{selection: {not: sel}}` structure. -/
theorem invert_not_wrapped_in_selection :
    (SelectionMapping.invert ⟨[("sel", Val.dict [])]⟩).map SchemaNode.toDict =
      Except.ok [("not", Val.str "sel")] ∧
    (SelectionMapping.invert ⟨[("sel", Val.dict [])]⟩).map SchemaNode.toDict ≠
      Except.ok [("selection", Val.dict [("not", Val.str "sel")])] := by
  refine ⟨rfl, ?_⟩
  intro h
  have h1 := Except.ok.inj h
  have h2 : ("not" : String) = "selection" := by
    injection h1 with hhead htail
    exact congrArg Prod.fst hhead
  exact absurd h2 (by decide)

/-- C6 (amended): on a selection mapping holding two or more names, `~S`
raises; on a mapping holding exactly one name, `~S` yields the
SelectionNot predicate node whose mapping form is `{not: name}` (the
`{selection: ...}` wrapper is added only when the node is later used as a
condition predicate). -/
theorem invert_selection_mapping (n : String) (v : Val)
    (m : SelectionMapping) (hm : 2 ≤ m.kwds.length) :
    SelectionMapping.invert ⟨[(n, v)]⟩ =
      Except.ok ⟨"SelectionNot", [("not", Val.str n)]⟩ ∧
    ∃ e, SelectionMapping.invert m = Except.error e := by
  refine ⟨rfl, ?_⟩
  obtain ⟨kwds⟩ := m
  match kwds, hm with
  | [], hm => simp at hm
  | [p], hm => simp at hm
  | p :: q :: rest, _ =>
      obtain ⟨pk, pv⟩ := p
      obtain ⟨qk, qv⟩ := q
      exact ⟨_, rfl⟩

/-- C6 (witness): the amended statement at a one-name and a two-name
mapping. -/
theorem invert_selection_mapping_witness :
    SelectionMapping.invert ⟨[("sel", Val.dict [])]⟩ =
      Except.ok ⟨"SelectionNot", [("not", Val.str "sel")]⟩ ∧
    ∃ e, SelectionMapping.invert
        ⟨[("a", Val.dict []), ("b", Val.dict [])]⟩ = Except.error e :=
  invert_selection_mapping "sel" (Val.dict [])
    ⟨[("a", Val.dict []), ("b", Val.dict [])]⟩ (by simp)

-- ----------------------------------------------------------------------
-- C7: selection conjunction and disjunction

/-- C7: on the single-name mappings alpha and beta, `A & B` builds the
SelectionAnd node with the `and` payload of both names — but `A | B` also
builds the SelectionAnd node class, carrying the `or` payload, instead of
the SelectionOr predicate node class. -/
theorem or_operator_builds_SelectionAnd :
    SelectionMapping.andOp ⟨[("alpha", Val.dict [])]⟩
        (.mapping ⟨[("beta", Val.dict [])]⟩) =
      Except.ok ⟨"SelectionAnd",
        [("and", Val.list [Val.str "alpha", Val.str "beta"])]⟩ ∧
    SelectionMapping.orOp ⟨[("alpha", Val.dict [])]⟩
        (.mapping ⟨[("beta", Val.dict [])]⟩) =
      Except.ok ⟨"SelectionAnd",
        [("or", Val.list [Val.str "alpha", Val.str "beta"])]⟩ ∧
    ("SelectionAnd" : String) ≠ "SelectionOr" :=
  ⟨rfl, rfl, by decide⟩

-- ----------------------------------------------------------------------
-- C10: the repeat helper

/-- C10: `repeat(repeater)` yields a RepeatRef node exactly for the
strings row and column, fails (assertion) on anything else, and never
produces a RepeatRef whose repeat field lies outside row/column. -/
theorem repeat_row_column_only (s : String) :
    ((s = "row" ∨ s = "column") →
      repeatRef s = some ⟨"RepeatRef", [("repeat", Val.str s)]⟩) ∧
    (s ≠ "row" → s ≠ "column" → repeatRef s = none) ∧
    (∀ n, repeatRef s = some n →
      (s = "row" ∨ s = "column") ∧
        n = ⟨"RepeatRef", [("repeat", Val.str s)]⟩) := by
  refine ⟨?_, ?_, ?_⟩
  · intro h
    unfold repeatRef
    rw [if_pos h]
  · intro h1 h2
    unfold repeatRef
    rw [if_neg (by tauto)]
  · intro n hn
    unfold repeatRef at hn
    by_cases h : s = "row" ∨ s = "column"
    · rw [if_pos h] at hn
      exact ⟨h, (Option.some.inj hn).symm⟩
    · rw [if_neg h] at hn
      cases hn

/-- C10 (witness): the repeat helper at the inputs row and diagonal. -/
theorem repeat_row_column_only_witness :
    repeatRef "row" = some ⟨"RepeatRef", [("repeat", Val.str "row")]⟩ ∧
    repeatRef "diagonal" = none :=
  ⟨(repeat_row_column_only "row").1 (Or.inl rfl),
   (repeat_row_column_only "diagonal").2.1 (by decide) (by decide)⟩

-- ----------------------------------------------------------------------
-- C1: the condition builder on a single-name selection predicate

/-- C1: for a single-name selection-mapping predicate, any if_true branch
(node, string, or mapping) and any if_false branch (node, string, or
mapping without its own condition key), `condition` returns a single
channel definition whose condition sub-mapping is `{selection: name}`
merged with if_true's attributes (node converted to a mapping, string
read as `{field: s}`), attached onto if_false's own field/value; in
particular the claimed concrete instance holds. -/
theorem condition_single_name (n : String) (v : Val) (t f : Branch)
    (hf : ∀ d, f = Branch.dict d → dictGet d "condition" = none) :
    (condition (.selMap ⟨[(n, v)]⟩) t f [] =
      (let tAttrs : Dict :=
        match t with
        | .node m => m.toDict
        | .str s => [("field", Val.str s)]
        | .dict d => d
      let cond : Val := Val.dict (dictUpdate [("selection", Val.str n)] tAttrs)
      match f with
      | .node m => Except.ok (.node ⟨m.cls, dictSet m.kwds "condition" cond⟩)
      | .str s => Except.ok (.dict [("condition", cond), ("field", Val.str s)])
      | .dict d => Except.ok (.dict (("condition", cond) :: d)))) ∧
    condition (.selMap ⟨[(n, v)]⟩) (.dict [("field", Val.str "a")])
        (.dict [("value", Val.str "grey")]) [] =
      Except.ok (.dict [("condition",
        Val.dict [("selection", Val.str n), ("field", Val.str "a")]),
        ("value", Val.str "grey")]) := by
  constructor
  · cases t <;> cases f <;>
      simp_all [condition, SelectionMapping.getName, dictUpdate, Except.map]
  · simp [condition, SelectionMapping.getName, dictUpdate, dictSet, dictGet,
      Except.map]

/-- C1 (witness): the claimed concrete instance, with selection name sel1:
condition.selection = sel1, condition.field = a, top-level value = grey. -/
theorem condition_single_name_witness :
    condition (.selMap ⟨[("sel1", Val.dict [])]⟩)
        (.dict [("field", Val.str "a")]) (.dict [("value", Val.str "grey")])
        [] =
      Except.ok (.dict [("condition",
        Val.dict [("selection", Val.str "sel1"), ("field", Val.str "a")]),
        ("value", Val.str "grey")]) :=
  (condition_single_name "sel1" (Val.dict []) (.dict [("field", Val.str "a")])
    (.dict [("value", Val.str "grey")])
    (fun d hd => by
      injection hd with h
      subst h
      rfl)).2

-- ----------------------------------------------------------------------
-- C5: the sub-spec constraint of the compound chart variants

theorem checkProps_ok (spec : SubSpec) (cls : String) (l : List String)
    (h : ∀ a ∈ l, (subspecGetAttr spec a).isUndefined) :
    checkProps spec cls l = .ok () := by
  induction l with
  | nil => rfl
  | cons a rest ih =>
      have ha := h a (List.mem_cons_self a rest)
      simp only [checkProps, ha, if_pos]
      exact ih (fun b hb => h b (List.mem_cons_of_mem _ hb))

theorem checkProps_error (spec : SubSpec) (cls : String) (l : List String)
    (h : ¬ ∀ a ∈ l, (subspecGetAttr spec a).isUndefined) :
    ∃ a ∈ l, ¬(subspecGetAttr spec a).isUndefined ∧
      checkProps spec cls l = .error (subspecErr a cls) := by
  induction l with
  | nil => simp at h
  | cons a rest ih =>
      by_cases ha : (subspecGetAttr spec a).isUndefined
      · have h' : ¬ ∀ b ∈ rest, (subspecGetAttr spec b).isUndefined := by
          intro hall
          exact h (by
            intro b hb
            rcases List.mem_cons.mp hb with rfl | hb'
            · exact ha
            · exact hall b hb')
        obtain ⟨b, hb, hnb, he⟩ := ih h'
        exact ⟨b, List.mem_cons_of_mem _ hb, hnb,
          by simp only [checkProps, ha, if_pos]; exact he⟩
      · exact ⟨a, List.mem_cons_self _ _, ha,
          by simp only [checkProps, ha]; rw [if_neg]; simp [ha]⟩

/-- C5: for each compound chart variant, a child declaring one of the
top-level-only properties (autosize, background, config, padding) is
rejected — at construction and by the append operators — with the error
naming an offending property and the variant class; a child declaring none
of them is accepted. -/
theorem subspec_constraint (kind : VariantKind) (child : SubSpec)
    (prev : List SubSpec) :
    ((∃ a ∈ topLevelOnlyProps, ¬(subspecGetAttr child a).isUndefined) →
      ∃ a ∈ topLevelOnlyProps, ¬(subspecGetAttr child a).isUndefined ∧
        mkCompoundChart kind [child] =
          .error (subspecErr a kind.className) ∧
        appendChild kind prev child =
          .error (subspecErr a kind.className)) ∧
    ((∀ a ∈ topLevelOnlyProps, (subspecGetAttr child a).isUndefined) →
      mkCompoundChart kind [child] = .ok [child] ∧
      appendChild kind prev child = .ok (prev ++ [child])) := by
  constructor
  · intro hex
    have h : ¬ ∀ a ∈ topLevelOnlyProps, (subspecGetAttr child a).isUndefined := by
      intro hall
      obtain ⟨a, ha, hna⟩ := hex
      exact hna (hall a ha)
    obtain ⟨a, ha, hna, he⟩ := checkProps_error child kind.className _ h
    refine ⟨a, ha, hna, ?_, ?_⟩
    · simp [mkCompoundChart, checkChildren, checkIfValidSubspec, he,
        Except.map, Except.bind, Bind.bind, Functor.map]
    · simp [appendChild, checkIfValidSubspec, he, Except.map, Functor.map]
  · intro hall
    have he := checkProps_ok child kind.className _ hall
    constructor
    · simp [mkCompoundChart, checkChildren, checkIfValidSubspec, he,
        Except.map, Except.bind, Bind.bind, Functor.map]
    · simp [appendChild, checkIfValidSubspec, he, Except.map, Functor.map]

/-- C5 (witness): the spec's own example — a chart with config set nested
inside a LayerChart is rejected with the error naming config — and a
config-free child is appended successfully. -/
theorem subspec_constraint_witness :
    mkCompoundChart .layer
        [SubSpec.node ⟨"Chart", [("config", Val.dict [])]⟩] =
      .error (subspecErr "config" "LayerChart") ∧
    appendChild .layer [] (SubSpec.dict [("mark", Val.str "point")]) =
      .ok [SubSpec.dict [("mark", Val.str "point")]] := by
  constructor
  · rfl
  · exact ((subspec_constraint .layer
      (SubSpec.dict [("mark", Val.str "point")]) []).2 (by decide)).2

-- ----------------------------------------------------------------------
-- C2: channel resolution in encode

/-- C2: a string argument is expanded as a shorthand field reference into
the title-cased field-bound channel subtype (x with a:Q gives an X channel
with field a, type quantitative); a mapping with a value key resolves to
the Value-suffixed subtype (color with value red gives ColorValue); a
channel name matching no subtype (neither plain nor Value-suffixed) fails
with the unrecognized-channel error. -/
theorem encode_channel_resolution (fromDictOk : String → Dict → Bool)
    (hx : fromDictOk "X"
      [("field", Val.str "a"), ("type", Val.str "quantitative")] = true)
    (hc : fromDictOk "ColorValue" [("value", Val.str "red")] = true) :
    encodeChannel fromDictOk "x" (.str "a:Q") =
      .ok (.node "X" [("field", Val.str "a"), ("type", Val.str "quantitative")]) ∧
    encodeChannel fromDictOk "color" (.dict [("value", Val.str "red")]) =
      .ok (.node "ColorValue" [("value", Val.str "red")]) ∧
    (∀ prop d, pythonTitle prop ∉ channelClassNames →
      (pythonTitle prop ++ "Value") ∉ channelClassNames →
      dictGet d "condition" = none →
      encodeChannel fromDictOk prop (.dict d) =
        .error ("Unrecognized encoding channel " ++ prop)) := by
  refine ⟨?_, ?_, ?_⟩
  · have h0 : encodeChannel fromDictOk "x" (.str "a:Q") =
        (if fromDictOk "X"
          [("field", Val.str "a"), ("type", Val.str "quantitative")] = true then
          (Except.ok (Val.node "X"
            [("field", Val.str "a"), ("type", Val.str "quantitative")]) :
            Except String Val)
        else Except.ok (Val.dict
          [("field", Val.str "a"), ("type", Val.str "quantitative")])) := rfl
    rw [h0, if_pos hx]
  · have h0 : encodeChannel fromDictOk "color" (.dict [("value", Val.str "red")]) =
        (if fromDictOk "ColorValue" [("value", Val.str "red")] = true then
          (Except.ok (Val.node "ColorValue" [("value", Val.str "red")]) :
            Except String Val)
        else Except.ok (Val.dict [("value", Val.str "red")])) := rfl
    rw [h0, if_pos hc]
  · intro prop d h1 h2 hcond
    have key : ∀ dd : Dict,
        resolveChannelDict fromDictOk (pythonTitle prop) prop dd =
          .error ("Unrecognized encoding channel " ++ prop) := by
      intro dd
      simp only [resolveChannelDict]
      by_cases hv : (dictGet (match dictGet dd "field" with
          | some (Val.str f) => dictUpdate dd (parse_shorthand f)
          | _ => dd) "value").isSome <;>
        simp [hv, h1, h2]
    have hred : encodeChannel fromDictOk prop (.dict d) =
        resolveChannelDict fromDictOk (pythonTitle prop) prop d := by
      unfold encodeChannel
      simp only [hcond]
      rfl
    rw [hred]
    exact key d

/-- C2 (witness): the three cases at concrete inputs, with a construction
capability that always succeeds. -/
theorem encode_channel_resolution_witness :
    encodeChannel (fun _ _ => true) "x" (.str "a:Q") =
      .ok (.node "X" [("field", Val.str "a"), ("type", Val.str "quantitative")]) ∧
    encodeChannel (fun _ _ => true) "color" (.dict [("value", Val.str "red")]) =
      .ok (.node "ColorValue" [("value", Val.str "red")]) ∧
    encodeChannel (fun _ _ => true) "banana" (.dict [("field", Val.str "b")]) =
      .error ("Unrecognized encoding channel " ++ "banana") := by
  have h := encode_channel_resolution (fun _ _ => true) rfl rfl
  exact ⟨h.1, h.2.1, h.2.2 "banana" [("field", Val.str "b")]
    (by decide) (by decide) rfl⟩

-- ----------------------------------------------------------------------
-- C8: the soft fallback of channel resolution

/-- C8 (counterexample): with construction failing, resolving the mapping
with the shorthand field a:Q on channel x falls back to the
shorthand-expanded mapping — not to the input mapping unchanged. -/
theorem encode_fallback_not_input_mapping :
    encodeChannel (fun _ _ => false) "x" (.dict [("field", Val.str "a:Q")]) =
      .ok (.dict [("field", Val.str "a"), ("type", Val.str "quantitative")]) ∧
    encodeChannel (fun _ _ => false) "x" (.dict [("field", Val.str "a:Q")]) ≠
      .ok (.dict [("field", Val.str "a:Q")]) := by
  refine ⟨rfl, ?_⟩
  intro h
  have h0 : (Except.ok (Val.dict
      [("field", Val.str "a"), ("type", Val.str "quantitative")]) :
        Except String Val) =
      .ok (.dict [("field", Val.str "a:Q")]) := h
  simp at h0

/-- C8 (amended): when construction of the resolved channel subtype fails
with a schema-validation error, channel resolution does not abort: it
returns, as a plain mapping, the argument as processed at that point (the
input mapping with shorthand-derived attributes merged over it when a
string field entry is present) rather than raising. -/
theorem encode_soft_fallback (fromDictOk : String → Dict → Bool)
    (prop : String) (d : Dict) (hcond : dictGet d "condition" = none)
    (d2 : Dict)
    (hd2 : d2 = (match dictGet d "field" with
      | some (Val.str f) => dictUpdate d (parse_shorthand f)
      | _ => d))
    (cls2 : String)
    (hcls2 : cls2 = (if (dictGet d2 "value").isSome then
      pythonTitle prop ++ "Value" else pythonTitle prop))
    (hmem : cls2 ∈ channelClassNames)
    (hfail : fromDictOk cls2 d2 = false) :
    encodeChannel fromDictOk prop (.dict d) = .ok (.dict d2) := by
  have hred : encodeChannel fromDictOk prop (.dict d) =
      resolveChannelDict fromDictOk (pythonTitle prop) prop d := by
    unfold encodeChannel
    simp only [hcond]
    rfl
  rw [hred]
  simp only [resolveChannelDict, ← hd2, ← hcls2]
  rw [if_pos hmem, if_neg (by simp [hfail])]

/-- C8 (witness): the amended fallback at channel x with the mapping
holding the shorthand field a:Q and an always-failing construction. -/
theorem encode_soft_fallback_witness :
    encodeChannel (fun _ _ => false) "x" (.dict [("field", Val.str "a:Q")]) =
      .ok (.dict [("field", Val.str "a"), ("type", Val.str "quantitative")]) :=
  encode_soft_fallback (fun _ _ => false) "x" [("field", Val.str "a:Q")] rfl
    [("field", Val.str "a"), ("type", Val.str "quantitative")] rfl
    "X" (by decide) (by decide) rfl

-- ----------------------------------------------------------------------
-- C3: the two-pass validation policy of to_dict

/-- C3: `to_dict` runs the conversion walk at most twice; when the first
(cheap) pass succeeds there is exactly one pass and its document is
finalized; when it raises a validation error, the error is discarded and
the whole conversion rerun exactly once in deep-validation mode, whose
outcome — failure included — is surfaced as is. -/
theorem to_dict_two_pass (pipeFn : String → DataAttr)
    (convert : ChartState → Bool → Except Unit Dict)
    (c : ChartState) (tl : Bool) :
    (toDict pipeFn convert c tl).conversions ≤ 2 ∧
    (∀ d, convert (prepareData pipeFn c) false = .ok d →
      toDict pipeFn convert c tl = ⟨.ok (finalizeTop tl d), 1, c⟩) ∧
    (∀ e, convert (prepareData pipeFn c) false = .error e →
      (toDict pipeFn convert c tl).conversions = 2 ∧
      (toDict pipeFn convert c tl).result =
        (convert (prepareData pipeFn c) true).map (finalizeTop tl)) := by
  rcases h1 : convert (prepareData pipeFn c) false with e1 | d1
  · rcases h2 : convert (prepareData pipeFn c) true with e2 | d2
    · refine ⟨by simp [toDict, h1, h2], ?_, ?_⟩
      · intro d hd
        cases hd
      · intro e he
        simp [toDict, h1, h2, Except.map]
    · refine ⟨by simp [toDict, h1, h2], ?_, ?_⟩
      · intro d hd
        cases hd
      · intro e he
        simp [toDict, h1, h2, Except.map]
  · refine ⟨by simp [toDict, h1], ?_, ?_⟩
    · intro d hd
      injection hd with hd
      subst hd
      simp [toDict, h1]
    · intro e he
      cases he

/-- C3 (witness): a conversion that fails its cheap pass and succeeds in
deep mode is run twice and its deep result surfaced. -/
theorem to_dict_two_pass_witness :
    (toDict (fun t => DataAttr.dataFrame t)
      (fun _ deep => if deep then Except.ok ([] : Dict) else Except.error ())
      ⟨DataAttr.undefined, []⟩ true).conversions = 2 ∧
    (toDict (fun t => DataAttr.dataFrame t)
      (fun _ deep => if deep then Except.ok ([] : Dict) else Except.error ())
      ⟨DataAttr.undefined, []⟩ true).result =
      ((fun (_ : ChartState) (deep : Bool) =>
          if deep then Except.ok ([] : Dict) else Except.error ())
        (prepareData (fun t => DataAttr.dataFrame t) ⟨DataAttr.undefined, []⟩)
        true).map (finalizeTop true) :=
  (to_dict_two_pass (fun t => DataAttr.dataFrame t)
    (fun _ deep => if deep then Except.ok ([] : Dict) else Except.error ())
    ⟨DataAttr.undefined, []⟩ true).2.2 () rfl

-- ----------------------------------------------------------------------
-- C4: the default-value merge of top-level serialization

/-- The top-level finalization in one equation. -/
theorem finalizeTop_true (dct : Dict) :
    finalizeTop true dct =
      update_nested defaultSpecValues
        (if (dictGet dct "$schema").isNone then
          dictSet dct "$schema" (Val.str SCHEMA_URL) else dct) := rfl

/-- C4: top-level serialization deep-merges the default view size
(width 400, height 300 under config.view) underneath the document: a
document with no config at all receives both defaults; an explicitly set
top-level width is never overridden; and on a document that explicitly
sets config.view.width = 200, the default 400 does not override it while
the missing height still receives its default. -/
theorem to_dict_default_values (pipeFn : String → DataAttr)
    (convert : ChartState → Bool → Except Unit Dict) (c : ChartState)
    (dct : Dict) (hwf : dictWF dct)
    (hok : convert (prepareData pipeFn c) false = .ok dct) :
    (toDict pipeFn convert c true).result = .ok (finalizeTop true dct) ∧
    (dictGet dct "config" = none →
      dictGetIn (Val.dict (finalizeTop true dct))
          ["config", "view", "width"] = some (Val.int 400) ∧
      dictGetIn (Val.dict (finalizeTop true dct))
          ["config", "view", "height"] = some (Val.int 300)) ∧
    (∀ w : Int, dictGet dct "width" = some (Val.int w) →
      dictGet (finalizeTop true dct) "width" = some (Val.int w)) ∧
    finalizeTop true
        [("width", Val.int 200),
         ("config", Val.dict [("view", Val.dict [("width", Val.int 200)])])] =
      [("config", Val.dict [("view", Val.dict
          [("width", Val.int 200), ("height", Val.int 300)])]),
       ("width", Val.int 200),
       ("$schema", Val.str SCHEMA_URL)] := by
  refine ⟨?_, ?_, ?_, ?_⟩
  · simp [toDict, hok]
  · intro hcfg
    have hcfg' : dictGet (if (dictGet dct "$schema").isNone then
        dictSet dct "$schema" (Val.str SCHEMA_URL) else dct) "config" =
          none := by
      by_cases hs : (dictGet dct "$schema").isNone
      · rw [if_pos hs, dictGet_dictSet_ne _ _ _ _ (by decide)]
        exact hcfg
      · rw [if_neg hs]
        exact hcfg
    have hlook : dictGet (update_nested defaultSpecValues
        (if (dictGet dct "$schema").isNone then
          dictSet dct "$schema" (Val.str SCHEMA_URL) else dct)) "config" =
        some (Val.dict [("view", Val.dict
          [("width", Val.int 400), ("height", Val.int 300)])]) := by
      rw [dictGet_update_nested_of_not_mem _ _ _ hcfg']
      rfl
    constructor
    · rw [finalizeTop_true]
      simp only [dictGetIn, hlook]
      rfl
    · rw [finalizeTop_true]
      simp only [dictGetIn, hlook]
      rfl
  · intro w hw
    rw [finalizeTop_true]
    have hw' : dictGet (if (dictGet dct "$schema").isNone then
        dictSet dct "$schema" (Val.str SCHEMA_URL) else dct) "width" =
          some (Val.int w) := by
      by_cases hs : (dictGet dct "$schema").isNone
      · rw [if_pos hs, dictGet_dictSet_ne _ _ _ _ (by decide)]
        exact hw
      · rw [if_neg hs]
        exact hw
    have hwf' : dictWF (if (dictGet dct "$schema").isNone then
        dictSet dct "$schema" (Val.str SCHEMA_URL) else dct) := by
      by_cases hs : (dictGet dct "$schema").isNone
      · rw [if_pos hs]
        exact dictWF_dictSet _ _ _ hwf
      · rw [if_neg hs]
        exact hwf
    exact dictGet_update_nested_of_nondict _ _ _ _ hwf' hw'
      (fun x h => Val.noConfusion h)
  · simp only [finalizeTop_true]
    simp [update_nested_cons, update_nested_nil, deepMergeVal_dicts,
      deepMergeVal_int, deepMergeVal_str, dictGet, dictSet,
      defaultSpecValues, SCHEMA_URL]

/-- C4 (witness): a document that only sets width = 200 keeps it, and
receives the default config.view.width = 400. -/
theorem to_dict_default_values_witness :
    (toDict (fun t => DataAttr.dataFrame t)
        (fun _ _ => Except.ok [("width", Val.int 200)])
        ⟨DataAttr.undefined, []⟩ true).result =
      .ok (finalizeTop true [("width", Val.int 200)]) ∧
    dictGet (finalizeTop true [("width", Val.int 200)]) "width" =
      some (Val.int 200) ∧
    dictGetIn (Val.dict (finalizeTop true [("width", Val.int 200)]))
        ["config", "view", "width"] = some (Val.int 400) := by
  have h := to_dict_default_values (fun t => DataAttr.dataFrame t)
    (fun _ _ => Except.ok [("width", Val.int 200)])
    ⟨DataAttr.undefined, []⟩ [("width", Val.int 200)]
    ⟨rfl, trivial⟩ rfl
  exact ⟨h.1, h.2.2.1 200 rfl, (h.2.1 rfl).1⟩

-- ----------------------------------------------------------------------
-- C9: data normalization and the receiver of to_dict

/-- C9 (counterexample): after `to_dict` on a chart holding a tabular
value, the instance's data attribute still holds the tabular value, not
the normalized node form — `to_dict` prepares a copy, not the receiver. -/
theorem to_dict_does_not_cache_normalization :
    (toDict
        (fun t => DataAttr.nodeData ⟨"InlineData", [("values", Val.str t)]⟩)
        (fun _ _ => Except.ok [])
        ⟨DataAttr.dataFrame "df", []⟩ true).selfAfter.data =
      DataAttr.dataFrame "df" ∧
    (toDict
        (fun t => DataAttr.nodeData ⟨"InlineData", [("values", Val.str t)]⟩)
        (fun _ _ => Except.ok [])
        ⟨DataAttr.dataFrame "df", []⟩ true).selfAfter.data ≠
      DataAttr.nodeData ⟨"InlineData", [("values", Val.str "df")]⟩ := by
  refine ⟨rfl, ?_⟩
  intro h
  have h' : DataAttr.dataFrame "df" =
      DataAttr.nodeData ⟨"InlineData", [("values", Val.str "df")]⟩ := h
  cases h'

/-- C9 (amended): `_prepare_data` does cache the normalized form on the
instance it is invoked on, but `to_dict` invokes it on a copy: the
receiver is returned unchanged, so a second serialization prepares the
same tabular data over again. -/
theorem prepare_data_caches_on_copy (pipeFn : String → DataAttr)
    (convert : ChartState → Bool → Except Unit Dict)
    (t : String) (r : Dict) (c : ChartState) (tl : Bool) :
    (prepareData pipeFn ⟨DataAttr.dataFrame t, r⟩).data = pipeFn t ∧
    (toDict pipeFn convert c tl).selfAfter = c ∧
    prepareData pipeFn ((toDict pipeFn convert c tl).selfAfter) =
      prepareData pipeFn c := by
  have hself : (toDict pipeFn convert c tl).selfAfter = c := by
    rcases h1 : convert (prepareData pipeFn c) false with e1 | d1
    · rcases h2 : convert (prepareData pipeFn c) true with e2 | d2 <;>
        simp [toDict, h1, h2]
    · simp [toDict, h1]
  exact ⟨rfl, hself, by rw [hself]⟩

end Altair
